import Mathlib

/-!
Verification of the incremental SFTP deployment and toolchain-orchestration
pipeline of the vscode-dotnet-deploy extension.

The TypeScript sources are shallowly embedded: every external effect
(filesystem stats, SFTP operations, subprocess exit codes) is supplied by an
explicit world record, and each embedded function mirrors the control flow of
its source function.  Functions below keep the names of their TypeScript
originals where possible.
-/

namespace DotnetDeploy

/-! ## JavaScript string primitives

The embedding models `String.prototype.startsWith` and `endsWith` on the
character lists underlying Lean strings. -/

/-- Model of the JavaScript call `s.startsWith(p)`. -/
def jsStartsWith (s p : String) : Bool :=
  p.data.isPrefixOf s.data

/-- Model of the JavaScript call `s.endsWith(p)`. -/
def jsEndsWith (s p : String) : Bool :=
  p.data.isSuffixOf s.data

/-! ## crossCompile/types.ts -/

/-- The four target families distinguished by `getCrossCompileTarget`. -/
inductive CrossTarget where
  | linux
  | windows
  | macos
  | native
deriving Repr, DecidableEq

/-- Embedding of `isCrossCompileNeeded` (crossCompile/types.ts).  The host
platform (`process.platform` in the source) is passed explicitly. -/
def isCrossCompileNeeded (platform runtime : String) : Bool :=
  if platform = "darwin" then !(jsStartsWith runtime "osx-")
  else if platform = "linux" then !(jsStartsWith runtime "linux-")
  else if platform = "win32" then !(jsStartsWith runtime "win-")
  else false

/-- Embedding of `getCrossCompileTarget` (crossCompile/types.ts). -/
def getCrossCompileTarget (runtime : String) : CrossTarget :=
  if jsStartsWith runtime "linux-" then CrossTarget.linux
  else if jsStartsWith runtime "win-" then CrossTarget.windows
  else if jsStartsWith runtime "osx-" then CrossTarget.macos
  else CrossTarget.native

/-- The OS family of a host platform string, expressed with the same
`CrossTarget` classification that `getCrossCompileTarget` assigns to build
targets; `none` for host platforms outside the three families the source
distinguishes. -/
def hostFamily (platform : String) : Option CrossTarget :=
  if platform = "darwin" then some CrossTarget.macos
  else if platform = "linux" then some CrossTarget.linux
  else if platform = "win32" then some CrossTarget.windows
  else none

/-- The `targetMap` table inside `getZigTarget` (crossCompile/types.ts). -/
def zigTargetMap : List (String × String) :=
  [("linux-x64", "x86_64-linux-gnu"),
   ("linux-arm64", "aarch64-linux-gnu"),
   ("linux-musl-x64", "x86_64-linux-musl"),
   ("linux-musl-arm64", "aarch64-linux-musl")]

/-- Embedding of `getZigTarget` (crossCompile/types.ts):
`targetMap[runtime] || default`. -/
def getZigTarget (runtime : String) : String :=
  (zigTargetMap.lookup runtime).getD "x86_64-linux-gnu"

/-- Embedding of `getWindowsArch` (crossCompile/types.ts). -/
def getWindowsArch (runtime : String) : String :=
  if jsEndsWith runtime "-x64" then "x64"
  else if jsEndsWith runtime "-x86" then "x86"
  else if jsEndsWith runtime "-arm64" then "arm64"
  else "x64"

/-! ## POSIX path helpers used by deployer.ts

`path.posix.join` and `path.posix.dirname` are modelled for the already
normalised, slash separated arguments the deployer passes them. -/

/-- Model of `path.posix.join(a, b)` for normalised arguments. -/
def posixJoin (a b : String) : String :=
  if a = "" then b else if b = "" then a else a ++ "/" ++ b

/-- Model of `path.posix.dirname`. -/
def posixDirname (p : String) : String :=
  match (p.splitOn "/").dropLast with
  | [] => "."
  | [""] => "/"
  | parts => String.intercalate "/" parts

/-! ## The incremental upload decision (deployer.ts `shouldUploadFile`) -/

/-- The fields of `fs.statSync` consulted by `shouldUploadFile`:
byte size and modification time in milliseconds. -/
structure LocalStat where
  size : Nat
  mtimeMs : Nat
deriving Repr, DecidableEq

/-- The fields of `sftp.stat` consulted by `shouldUploadFile`:
byte size and modification time in whole seconds. -/
structure RemoteStat where
  size : Nat
  modifyTime : Nat
deriving Repr, DecidableEq

/-- Embedding of `shouldUploadFile` (deployer.ts).  A `none` local stat models
the outer catch (any local stat failure), a `none` remote stat models the
inner catch (remote file absent or stat failure); both say upload. -/
def shouldUploadFile (localStat : Option LocalStat) (remoteStat : Option RemoteStat) : Bool :=
  match localStat with
  | none => true
  | some ls =>
    match remoteStat with
    | none => true
    | some rs =>
      if ls.size ≠ rs.size then true
      else if rs.modifyTime < ls.mtimeMs / 1000 then true
      else false

/-! ## The SFTP deploy operation (deployer.ts `deploy`)

The deploy function is embedded as a pure function over an `SftpWorld` that
fixes the outcome of every session operation, together with an event trace
recording each session call in execution order. -/

/-- Outcome of a fallible session operation. -/
inductive OpResult where
  | ok
  | fail (msg : String)
deriving Repr, DecidableEq

/-- One enumerated local file (`getAllFiles` result entry): its slash
separated path relative to the publish directory, and its local stat. -/
structure LocalFile where
  relPath : String
  size : Nat
  mtimeMs : Nat
deriving Repr, DecidableEq

/-- The local stat `shouldUploadFile` reads for an enumerated file. -/
def localStatOf (f : LocalFile) : LocalStat :=
  { size := f.size, mtimeMs := f.mtimeMs }

/-- Behaviour of the SFTP session: the result of each operation keyed by the
path it is applied to.  `mkdir` is kept in the record even though the source
swallows every mkdir error at both call sites. -/
structure SftpWorld where
  connect : OpResult
  mkdir : String → OpResult
  stat : String → Option RemoteStat
  put : String → OpResult
  chmod : String → OpResult

/-- Session events, in the order the source awaits them. -/
inductive Ev where
  | connectE
  | mkdirE (p : String)
  | statE (p : String)
  | putE (p : String)
  | chmodE (p : String)
  | endE
deriving Repr, DecidableEq

/-- Result of `deploy`, extended with the upload and skip counters the source
reports on its output channel. -/
structure DeployOutcome where
  success : Bool
  error : Option String
  uploaded : Nat
  skipped : Nat
deriving Repr, DecidableEq

/-- The intended remote path of a local file:
`path.posix.join(remoteDir, relativePath)`. -/
def remoteFilePath (remoteDir : String) (f : LocalFile) : String :=
  posixJoin remoteDir f.relPath

/-- The incremental scan loop of `deploy`: one `sftp.stat` per file via
`shouldUploadFile`, partitioning files into upload candidates and a skip
count.  A stat failure never aborts the scan. -/
def incrementalScan (w : SftpWorld) (remoteDir : String) :
    List LocalFile → List Ev × List LocalFile × Nat
  | [] => ([], [], 0)
  | f :: rest =>
    let r := remoteFilePath remoteDir f
    let res := incrementalScan w remoteDir rest
    if shouldUploadFile (some (localStatOf f)) (w.stat r) then
      (Ev.statE r :: res.1, f :: res.2.1, res.2.2)
    else
      (Ev.statE r :: res.1, res.2.1, res.2.2 + 1)

/-- The upload loop of `deploy`: per candidate, a parent `mkdir` whose errors
are swallowed, then `put`.  The first `put` failure aborts the loop with the
raised message; the counter counts completed puts. -/
def uploadLoop (w : SftpWorld) (remoteDir : String) :
    List LocalFile → List Ev × Option String × Nat
  | [] => ([], none, 0)
  | f :: rest =>
    let r := remoteFilePath remoteDir f
    match w.put r with
    | OpResult.fail msg => ([Ev.mkdirE (posixDirname r), Ev.putE r], some msg, 0)
    | OpResult.ok =>
      let res := uploadLoop w remoteDir rest
      (Ev.mkdirE (posixDirname r) :: Ev.putE r :: res.1, res.2.1, res.2.2 + 1)

/-- The candidate selection of `deploy`: all files when the incremental flag
is off, otherwise the files `incrementalScan` marks as needing upload. -/
def deployCandidates (incrementalUpload : Bool) (w : SftpWorld) (remoteDir : String)
    (files : List LocalFile) : List LocalFile × Nat :=
  if incrementalUpload then
    let res := incrementalScan w remoteDir files
    (res.2.1, res.2.2)
  else (files, 0)

/-- Embedding of `deploy` (deployer.ts).  Mirrors the try/catch structure of
the source: the body connects, creates the remote directory (errors
swallowed), selects candidates, uploads them, chmods the remote executable
and closes the session; the catch handler closes the session once and
surfaces the raised message. -/
def deploy (incrementalUpload : Bool) (w : SftpWorld)
    (remotePath assemblyName : String) (files : List LocalFile) :
    DeployOutcome × List Ev :=
  match w.connect with
  | OpResult.fail msg =>
      ({ success := false, error := some msg, uploaded := 0, skipped := 0 },
       [Ev.connectE, Ev.endE])
  | OpResult.ok =>
    let remoteDir := posixJoin remotePath assemblyName
    let hd := [Ev.connectE, Ev.mkdirE remoteDir]
    let scanEvs := if incrementalUpload then (incrementalScan w remoteDir files).1 else []
    let cand := deployCandidates incrementalUpload w remoteDir files
    let up := uploadLoop w remoteDir cand.1
    match up.2.1 with
    | some msg =>
        ({ success := false, error := some msg, uploaded := up.2.2, skipped := cand.2 },
         hd ++ scanEvs ++ up.1 ++ [Ev.endE])
    | none =>
      let executablePath := posixJoin remoteDir assemblyName
      match w.chmod executablePath with
      | OpResult.fail msg =>
          ({ success := false, error := some msg, uploaded := up.2.2, skipped := cand.2 },
           hd ++ scanEvs ++ up.1 ++ [Ev.chmodE executablePath, Ev.endE])
      | OpResult.ok =>
          ({ success := true, error := none, uploaded := up.2.2, skipped := cand.2 },
           hd ++ scanEvs ++ up.1 ++ [Ev.chmodE executablePath, Ev.endE])

/-! ## The publisher (publisher.ts `publish`, close handler)

The `dotnet publish` subprocess is external: its exit code and captured
output streams are inputs.  The embedding models the `close` handler of the
subprocess, which is where the success/failure classification, the UPX step
and the macOS packaging step live. -/

/-- External behaviour consulted after a successful build: the directory
listing of the publish directory, the UPX subprocess result (`none` models a
spawn error), and the macOS packaging collaborators. -/
structure PublishWorld where
  dirFiles : List String
  upxExit : Option Nat
  macosHost : Bool
  macosConfig : Bool
  macosPackageOutput : Option String

/-- Result of `publish`, extended with which optional steps were entered. -/
structure PublishOutcome where
  success : Bool
  outputPath : String
  assemblyName : String
  error : Option String
  upxInvoked : Bool
  upxSpawned : Bool
  upxSucceeded : Option Bool
  packageInvoked : Bool
deriving Repr, DecidableEq

/-- Embedding of `findExecutable` (publisher.ts): the first of
`projectName`, `projectName.exe` present in the directory. -/
def findExecutable (dirFiles : List String) (dir projectName : String) : Option String :=
  if dirFiles.contains projectName then some (posixJoin dir projectName)
  else if dirFiles.contains (projectName ++ ".exe") then
    some (posixJoin dir (projectName ++ ".exe"))
  else none

/-- Embedding of the `close` handler inside `publish` (publisher.ts).
On exit code zero it runs the UPX step when enabled and supported (the UPX
result is only logged, never consulted), then macOS packaging when the host
is macOS, the runtime targets macOS and a packaging config exists; packaging
success substitutes the output path.  On a non-zero exit code it resolves
`success: false` with `stderr || stdout` and runs no further phase. -/
def publishOnClose (runtime projectName publishDir : String) (upxEnabled : Bool)
    (w : PublishWorld) (code : Nat) (stdout stderr : String) : PublishOutcome :=
  if code = 0 then
    let isUPXSupported := jsStartsWith runtime "linux-" || jsStartsWith runtime "win-"
    let upxInvoked := upxEnabled && isUPXSupported
    let upxSpawned := upxInvoked &&
      (w.dirFiles.contains projectName || w.dirFiles.contains (projectName ++ ".exe"))
    let upxSucceeded := if upxSpawned then some (w.upxExit == some 0) else none
    let packageInvoked := w.macosHost && jsStartsWith runtime "osx-" && w.macosConfig
    let macosPackagePath :=
      if packageInvoked then
        match findExecutable w.dirFiles publishDir projectName with
        | some _ => w.macosPackageOutput
        | none => none
      else none
    { success := true,
      outputPath := macosPackagePath.getD publishDir,
      assemblyName := projectName,
      error := none,
      upxInvoked := upxInvoked,
      upxSpawned := upxSpawned,
      upxSucceeded := upxSucceeded,
      packageInvoked := packageInvoked }
  else
    { success := false,
      outputPath := publishDir,
      assemblyName := projectName,
      error := some (if stderr = "" then stdout else stderr),
      upxInvoked := false,
      upxSpawned := false,
      upxSucceeded := none,
      packageInvoked := false }

/-! ## The deployment sequencer (sidebarProvider.ts `_handleDeploy`)

The sequencer awaits `publish`, then in server mode `deploy`, then
`executeRemote`, returning after the first failure.  Each collaborator is
summarised by its success bit; the embedding returns the list of steps that
were started, in order, and the terminal user message. -/

/-- The three awaited pipeline steps of `_handleDeploy`. -/
inductive DeployStep where
  | publishStep
  | uploadStep
  | startStep
deriving Repr, DecidableEq

/-- The five terminal messages `_handleDeploy` can post. -/
inductive DeployMessage where
  | publishFailed
  | publishedLocal
  | uploadFailed
  | startFailed
  | deployed
deriving Repr, DecidableEq

/-- Success bits of the three collaborators for one deploy request. -/
structure StepResults where
  publishOk : Bool
  uploadOk : Bool
  startOk : Bool

/-- Embedding of `_handleDeploy` (sidebarProvider.ts), from the `publish`
call onward: each step is awaited in order and a failing step returns
immediately with its distinct error message. -/
def handleDeploy (isLocal : Bool) (r : StepResults) : List DeployStep × DeployMessage :=
  if r.publishOk = false then
    ([DeployStep.publishStep], DeployMessage.publishFailed)
  else if isLocal then
    ([DeployStep.publishStep], DeployMessage.publishedLocal)
  else if r.uploadOk = false then
    ([DeployStep.publishStep, DeployStep.uploadStep], DeployMessage.uploadFailed)
  else if r.startOk = false then
    ([DeployStep.publishStep, DeployStep.uploadStep, DeployStep.startStep],
     DeployMessage.startFailed)
  else
    ([DeployStep.publishStep, DeployStep.uploadStep, DeployStep.startStep],
     DeployMessage.deployed)

/-! ## The Windows cross-compile argument builder
(crossCompile/xwinSetup.ts `getWindowsCrossCompileArgs`) -/

/-- External behaviour consulted by the builder: filesystem existence, the
lld probe, the configured SDK cache path, the host CPU architecture and PATH.
`hostPathListDelimiter` carries the value of `path.delimiter` on the host;
the builder never reads it, which is exactly the separator-correctness
property under verification. -/
structure XwinWorld where
  fsExists : String → Bool
  lldInstalled : Bool
  lldResolvedPath : Option String
  sdkPath : String
  hostIsArm64 : Bool
  envPATH : String
  hostPathListDelimiter : String

/-- Result of `getWindowsCrossCompileArgs`: MSBuild arguments plus the `LIB`
and `PATH` entries of the returned environment overlay. -/
structure WinCrossArgs where
  success : Bool
  args : List String
  envLIB : Option String
  envPATH : Option String
  error : Option String
deriving Repr, DecidableEq

/-- The three architecture specific library search paths the builder probes
under the SDK cache root. -/
def xwinLibPaths (sdkPath runtime : String) : List String :=
  let splatPath := posixJoin sdkPath "splat"
  let arch := getWindowsArch runtime
  [posixJoin (posixJoin (posixJoin splatPath "crt") "lib") arch,
   posixJoin (posixJoin (posixJoin (posixJoin splatPath "sdk") "lib") "um") arch,
   posixJoin (posixJoin (posixJoin (posixJoin splatPath "sdk") "lib") "ucrt") arch]

/-- Embedding of `getWindowsCrossCompileArgs` (crossCompile/xwinSetup.ts):
fail when the SDK cache or lld-link is missing, otherwise emit the MSBuild
arguments and an environment whose `LIB` joins the existing library paths
with a literal semicolon. -/
def getWindowsCrossCompileArgs (w : XwinWorld) (runtime : String) : WinCrossArgs :=
  let splatPath := posixJoin w.sdkPath "splat"
  let crtPath := posixJoin splatPath "crt"
  if !(w.fsExists crtPath) then
    { success := false, args := [], envLIB := none, envPATH := none,
      error := some "Windows SDK not found. Please download it first." }
  else if !w.lldInstalled then
    { success := false, args := [], envLIB := none, envPATH := none,
      error := some "lld-link is not installed. Please install LLD: brew install lld" }
  else
    let baseArgs := ["-p:DisableUnsupportedError=true",
      "-p:AcceptVSBuildToolsLicense=true",
      "-p:EnableSourceLink=false",
      "-p:EnableSourceControlManagerQueries=false"]
    let linkerArg := match w.lldResolvedPath with
      | some p => "-p:CppLinker=" ++ p
      | none => "-p:CppLinker=lld-link"
    let libPaths := (xwinLibPaths w.sdkPath runtime).filter w.fsExists
    let libEnvPaths := String.intercalate ";" libPaths
    let brewRoot := if w.hostIsArm64 then "/opt/homebrew" else "/usr/local"
    let lldBinPath := posixJoin (posixJoin (posixJoin brewRoot "opt") "lld") "bin"
    let pathEnv := if w.fsExists lldBinPath
      then lldBinPath ++ ":" ++ w.envPATH
      else w.envPATH
    { success := true,
      args := baseArgs ++ [linkerArg],
      envLIB := some libEnvPaths,
      envPATH := some pathEnv,
      error := none }

/-! ## Concrete instances used to exercise the theorems -/

/-- A remote world where the single local file is already present with the
same size and an at-least-as-new second resolution modification time. -/
def freshWorld : SftpWorld :=
  { connect := OpResult.ok
    mkdir := fun _ => OpResult.ok
    stat := fun p => if p = "/srv/App/a.txt" then some { size := 100, modifyTime := 7 } else none
    put := fun _ => OpResult.ok
    chmod := fun _ => OpResult.ok }

/-- The file list matching `freshWorld`: one file of 100 bytes whose local
mtime truncates to 5 seconds. -/
def freshFiles : List LocalFile :=
  [{ relPath := "a.txt", size := 100, mtimeMs := 5999 }]

/-- Five candidate files, as in the teardown scenario of the spec. -/
def fiveFiles : List LocalFile :=
  [{ relPath := "f1", size := 1, mtimeMs := 1000 },
   { relPath := "f2", size := 2, mtimeMs := 1000 },
   { relPath := "f3", size := 3, mtimeMs := 1000 },
   { relPath := "f4", size := 4, mtimeMs := 1000 },
   { relPath := "f5", size := 5, mtimeMs := 1000 }]

/-- A world whose `put` raises exactly on the third of the five candidate
files. -/
def putFailWorld : SftpWorld :=
  { connect := OpResult.ok
    mkdir := fun _ => OpResult.ok
    stat := fun _ => none
    put := fun p => if p = "/srv/App/f3" then OpResult.fail "No such file /srv/App/f3" else OpResult.ok
    chmod := fun _ => OpResult.ok }

/-- A world where every upload succeeds but `chmod` on the remote main
executable raises, e.g. because the artifact is named `App.exe` and no file
named `App` exists under the remote root. -/
def chmodFailWorld : SftpWorld :=
  { connect := OpResult.ok
    mkdir := fun _ => OpResult.ok
    stat := fun _ => none
    put := fun _ => OpResult.ok
    chmod := fun p => OpResult.fail ("No such file " ++ p) }

/-- The file list for the chmod scenario: a Windows style artifact only. -/
def exeOnlyFiles : List LocalFile :=
  [{ relPath := "App.exe", size := 10, mtimeMs := 1000 }]

/-- A publish world whose compressor exits with a non-zero code. -/
def upxFailPublishWorld : PublishWorld :=
  { dirFiles := ["App", "App.pdb"]
    upxExit := some 1
    macosHost := false
    macosConfig := false
    macosPackageOutput := none }

/-- An xwin world over the SDK cache root `/sdk` where the crt and um
library directories exist but the ucrt one does not. -/
def xwinExampleWorld : XwinWorld :=
  { fsExists := fun p =>
      p ∈ ["/sdk/splat/crt", "/sdk/splat/crt/lib/x64", "/sdk/splat/sdk/lib/um/x64"]
    lldInstalled := true
    lldResolvedPath := some "/usr/local/opt/lld/bin/lld-link"
    sdkPath := "/sdk"
    hostIsArm64 := false
    envPATH := "/usr/bin"
    hostPathListDelimiter := ":" }

/-! ## Helper lemmas -/

theorem jsStartsWith_head (s p : String) (c : Char) (cs : List Char)
    (hp : p.data = c :: cs) (h : jsStartsWith s p = true) :
    ∃ t, s.data = c :: t := by
  unfold jsStartsWith at h
  rw [hp] at h
  cases hs : s.data with
  | nil => rw [hs] at h; simp [List.isPrefixOf] at h
  | cons d t =>
    rw [hs] at h
    simp [List.isPrefixOf] at h
    exact ⟨t, by rw [h.1]⟩

theorem jsStartsWith_disjoint (s p q : String) (c d : Char) (cs ds : List Char)
    (hp : p.data = c :: cs) (hq : q.data = d :: ds) (hne : d ≠ c)
    (h : jsStartsWith s p = true) : jsStartsWith s q = false := by
  obtain ⟨t, ht⟩ := jsStartsWith_head s p c cs hp h
  unfold jsStartsWith
  rw [hq, ht]
  simp [List.isPrefixOf, hne]

theorem osx_not_linux (s : String) (h : jsStartsWith s "osx-" = true) :
    jsStartsWith s "linux-" = false :=
  jsStartsWith_disjoint s "osx-" "linux-" 'o' 'l' _ _ rfl rfl (by decide) h

theorem osx_not_win (s : String) (h : jsStartsWith s "osx-" = true) :
    jsStartsWith s "win-" = false :=
  jsStartsWith_disjoint s "osx-" "win-" 'o' 'w' _ _ rfl rfl (by decide) h

theorem win_not_linux (s : String) (h : jsStartsWith s "win-" = true) :
    jsStartsWith s "linux-" = false :=
  jsStartsWith_disjoint s "win-" "linux-" 'w' 'l' _ _ rfl rfl (by decide) h

theorem linux_not_osx (s : String) (h : jsStartsWith s "linux-" = true) :
    jsStartsWith s "osx-" = false :=
  jsStartsWith_disjoint s "linux-" "osx-" 'l' 'o' _ _ rfl rfl (by decide) h

theorem win_not_osx (s : String) (h : jsStartsWith s "win-" = true) :
    jsStartsWith s "osx-" = false :=
  jsStartsWith_disjoint s "win-" "osx-" 'w' 'o' _ _ rfl rfl (by decide) h

theorem incrementalScan_no_endE (w : SftpWorld) (d : String) (fs : List LocalFile) :
    Ev.endE ∉ (incrementalScan w d fs).1 := by
  induction fs with
  | nil => simp [incrementalScan]
  | cons f rest ih =>
    cases h : shouldUploadFile (some (localStatOf f)) (w.stat (remoteFilePath d f)) <;>
      simp [incrementalScan, h, ih]

theorem uploadLoop_no_endE (w : SftpWorld) (d : String) (fs : List LocalFile) :
    Ev.endE ∉ (uploadLoop w d fs).1 := by
  induction fs with
  | nil => simp [uploadLoop]
  | cons f rest ih =>
    cases h : w.put (remoteFilePath d f) with
    | ok => simp [uploadLoop, h, ih]
    | fail msg => simp [uploadLoop, h]

theorem uploadLoop_all_ok (w : SftpWorld) (d : String) (fs : List LocalFile)
    (h : ∀ f ∈ fs, w.put (remoteFilePath d f) = OpResult.ok) :
    (uploadLoop w d fs).2.1 = none ∧ (uploadLoop w d fs).2.2 = fs.length := by
  induction fs with
  | nil => exact ⟨rfl, rfl⟩
  | cons f rest ih =>
    have hf : w.put (remoteFilePath d f) = OpResult.ok := h f (by simp)
    have ihr := ih (fun g hg => h g (by simp [hg]))
    simp [uploadLoop, hf, ihr.1, ihr.2]

theorem uploadLoop_error_at (w : SftpWorld) (d : String)
    (pre : List LocalFile) (f : LocalFile) (post : List LocalFile) (msg : String)
    (hpre : ∀ g ∈ pre, w.put (remoteFilePath d g) = OpResult.ok)
    (hf : w.put (remoteFilePath d f) = OpResult.fail msg) :
    (uploadLoop w d (pre ++ f :: post)).2.1 = some msg := by
  induction pre with
  | nil => simp [uploadLoop, hf]
  | cons g rest ih =>
    have hg : w.put (remoteFilePath d g) = OpResult.ok := hpre g (by simp)
    have ihr := ih (fun g hgm => hpre g (by simp [hgm]))
    simp [uploadLoop, hg, ihr]

theorem incrementalScan_all_fresh (w : SftpWorld) (d : String) (fs : List LocalFile)
    (h : ∀ f ∈ fs,
        shouldUploadFile (some (localStatOf f)) (w.stat (remoteFilePath d f)) = false) :
    (incrementalScan w d fs).2.1 = [] ∧ (incrementalScan w d fs).2.2 = fs.length := by
  induction fs with
  | nil => exact ⟨rfl, rfl⟩
  | cons f rest ih =>
    have hf := h f (by simp)
    have ihr := ih (fun g hg => h g (by simp [hg]))
    simp [incrementalScan, hf, ihr.1, ihr.2]

/-! ## Claim theorems -/

/-- Claim C1: for every local file considered by an incremental sync pass the
upload decision satisfies: needsUpload is true exactly when the remote stat
fails (remote file absent), the sizes differ, or the local modification time
truncated to whole seconds is strictly greater than the second resolution
remote modification time; and a failing local stat also yields needsUpload,
never a silent skip. -/
theorem shouldUploadFile_spec (ls : LocalStat) (rs : Option RemoteStat) :
    (shouldUploadFile (some ls) rs = true ↔
      rs = none ∨ ∃ r, rs = some r ∧ (ls.size ≠ r.size ∨ r.modifyTime < ls.mtimeMs / 1000))
  ∧ shouldUploadFile none rs = true := by
  constructor
  · cases rs with
    | none => simp [shouldUploadFile]
    | some r =>
      by_cases hs : ls.size = r.size
      · by_cases hm : r.modifyTime < ls.mtimeMs / 1000 <;>
          simp [shouldUploadFile, hs, hm]
      · simp [shouldUploadFile, hs]
  · rfl

/-- Witness for claim C1 at a concrete pair of stats: same size, local mtime
truncating to 5 seconds against a remote time of 7 seconds. -/
theorem shouldUploadFile_spec_witness :
    (shouldUploadFile (some { size := 100, mtimeMs := 5999 })
        (some { size := 100, modifyTime := 7 }) = true ↔
      (some { size := 100, modifyTime := 7 } : Option RemoteStat) = none ∨
        ∃ r, (some { size := 100, modifyTime := 7 } : Option RemoteStat) = some r ∧
          ((100 : Nat) ≠ r.size ∨ r.modifyTime < 5999 / 1000))
  ∧ shouldUploadFile none (some { size := 100, modifyTime := 7 }) = true :=
  shouldUploadFile_spec { size := 100, mtimeMs := 5999 }
    (some { size := 100, modifyTime := 7 })

/-- Claim C8: for every runtime and for each of the three host platforms the
source distinguishes, `isCrossCompileNeeded` returns true exactly when the
OS family of the build target (as classified by `getCrossCompileTarget`)
differs from the OS family of the host. -/
theorem isCrossCompileNeeded_iff_family_differs (platform runtime : String)
    (fam : CrossTarget) (hfam : hostFamily platform = some fam) :
    isCrossCompileNeeded platform runtime = true ↔
      getCrossCompileTarget runtime ≠ fam := by
  by_cases hd : platform = "darwin"
  · rw [hostFamily, if_pos hd] at hfam
    rw [Option.some_inj] at hfam
    subst hfam
    rw [isCrossCompileNeeded, if_pos hd]
    cases hosx : jsStartsWith runtime "osx-" with
    | true =>
      have hl := osx_not_linux runtime hosx
      have hw := osx_not_win runtime hosx
      simp [getCrossCompileTarget, hosx, hl, hw]
    | false =>
      cases hl : jsStartsWith runtime "linux-" <;>
        cases hw : jsStartsWith runtime "win-" <;>
          simp [getCrossCompileTarget, hosx, hl, hw]
  · by_cases hli : platform = "linux"
    · rw [hostFamily, if_neg hd, if_pos hli] at hfam
      rw [Option.some_inj] at hfam
      subst hfam
      rw [isCrossCompileNeeded, if_neg hd, if_pos hli]
      cases hl : jsStartsWith runtime "linux-" with
      | true => simp [getCrossCompileTarget, hl]
      | false =>
        cases hw : jsStartsWith runtime "win-" <;>
          cases hosx : jsStartsWith runtime "osx-" <;>
            simp [getCrossCompileTarget, hl, hw, hosx]
    · by_cases hwi : platform = "win32"
      · rw [hostFamily, if_neg hd, if_neg hli, if_pos hwi] at hfam
        rw [Option.some_inj] at hfam
        subst hfam
        rw [isCrossCompileNeeded, if_neg hd, if_neg hli, if_pos hwi]
        cases hw : jsStartsWith runtime "win-" with
        | true =>
          have hl := win_not_linux runtime hw
          simp [getCrossCompileTarget, hw, hl]
        | false =>
          cases hl : jsStartsWith runtime "linux-" <;>
            cases hosx : jsStartsWith runtime "osx-" <;>
              simp [getCrossCompileTarget, hl, hw, hosx]
      · rw [hostFamily, if_neg hd, if_neg hli, if_neg hwi] at hfam
        exact absurd hfam (by simp)

/-- Witness for claim C8 at a concrete host and runtime: on a macOS host a
Windows target needs cross compilation. -/
theorem isCrossCompileNeeded_iff_family_differs_witness :
    isCrossCompileNeeded "darwin" "win-x64" = true ↔
      getCrossCompileTarget "win-x64" ≠ CrossTarget.macos :=
  isCrossCompileNeeded_iff_family_differs "darwin" "win-x64" CrossTarget.macos rfl

/-- Claim C10: the target identifier lookups are total with silent defaults:
`getWindowsArch` answers x64 for any runtime not ending in -x64, -x86 or
-arm64, and `getZigTarget` answers x86_64-linux-gnu for any runtime outside
its Linux table; neither ever fails. -/
theorem target_lookup_defaults :
    (∀ runtime : String,
        jsEndsWith runtime "-x64" = false →
        jsEndsWith runtime "-x86" = false →
        jsEndsWith runtime "-arm64" = false →
        getWindowsArch runtime = "x64")
  ∧ (∀ runtime : String,
        zigTargetMap.lookup runtime = none →
        getZigTarget runtime = "x86_64-linux-gnu") := by
  constructor
  · intro runtime h64 h86 hArm
    simp [getWindowsArch, h64, h86, hArm]
  · intro runtime h
    simp [getZigTarget, h]

/-- Witness for claim C10: an unrecognised runtime takes both defaults. -/
theorem target_lookup_defaults_witness :
    getWindowsArch "freebsd-riscv" = "x64" ∧
      getZigTarget "freebsd-riscv" = "x86_64-linux-gnu" :=
  ⟨target_lookup_defaults.1 "freebsd-riscv" (by decide) (by decide) (by decide),
   target_lookup_defaults.2 "freebsd-riscv" (by decide)⟩

/-- Claim C3: whenever the Windows argument builder succeeds, the `LIB`
environment value is the existing library search paths joined with a literal
semicolon, and the result does not depend on the host path-list delimiter. -/
theorem getWindowsCrossCompileArgs_LIB (w : XwinWorld) (runtime : String)
    (hok : (getWindowsCrossCompileArgs w runtime).success = true) :
    (getWindowsCrossCompileArgs w runtime).envLIB =
      some (String.intercalate ";" ((xwinLibPaths w.sdkPath runtime).filter w.fsExists))
  ∧ ∀ d : String,
      getWindowsCrossCompileArgs { w with hostPathListDelimiter := d } runtime =
        getWindowsCrossCompileArgs w runtime := by
  constructor
  · by_cases hcrt : w.fsExists (posixJoin (posixJoin w.sdkPath "splat") "crt") = true
    · by_cases hlld : w.lldInstalled = true
      · simp [getWindowsCrossCompileArgs, hcrt, hlld]
      · rw [Bool.not_eq_true] at hlld
        simp [getWindowsCrossCompileArgs, hcrt, hlld] at hok
    · rw [Bool.not_eq_true] at hcrt
      simp [getWindowsCrossCompileArgs, hcrt] at hok
  · intro d
    cases w
    rfl

/-- Witness for claim C3: over the cache root `/sdk` with exactly two of the
three library directories existing, `LIB` is the two paths joined by a
semicolon. -/
theorem getWindowsCrossCompileArgs_LIB_witness :
    (getWindowsCrossCompileArgs xwinExampleWorld "win-x64").envLIB =
      some "/sdk/splat/crt/lib/x64;/sdk/splat/sdk/lib/um/x64" :=
  ((getWindowsCrossCompileArgs_LIB xwinExampleWorld "win-x64" (by decide)).1).trans
    (by decide)

/-- Claim C4: a non-zero build exit code makes `publish` resolve failure with
the captured stderr (or stdout when stderr is empty), without entering the
compression or the packaging step. -/
theorem publish_fail_fast (runtime projectName publishDir : String)
    (upxEnabled : Bool) (w : PublishWorld) (code : Nat) (stdout stderr : String)
    (h : code ≠ 0) :
    (publishOnClose runtime projectName publishDir upxEnabled w code stdout stderr).success
        = false
  ∧ (publishOnClose runtime projectName publishDir upxEnabled w code stdout stderr).error
        = some (if stderr = "" then stdout else stderr)
  ∧ (publishOnClose runtime projectName publishDir upxEnabled w code stdout stderr).upxInvoked
        = false
  ∧ (publishOnClose runtime projectName publishDir upxEnabled w code stdout
        stderr).packageInvoked = false := by
  simp [publishOnClose, h]

/-- Witness for claim C4: exit code 1 with a non-empty stderr. -/
theorem publish_fail_fast_witness :
    (publishOnClose "linux-x64" "App" "/out" true upxFailPublishWorld 1
        "out text" "error text").success = false
  ∧ (publishOnClose "linux-x64" "App" "/out" true upxFailPublishWorld 1
        "out text" "error text").error = some "error text"
  ∧ (publishOnClose "linux-x64" "App" "/out" true upxFailPublishWorld 1
        "out text" "error text").upxInvoked = false
  ∧ (publishOnClose "linux-x64" "App" "/out" true upxFailPublishWorld 1
        "out text" "error text").packageInvoked = false := by
  have h := publish_fail_fast "linux-x64" "App" "/out" true upxFailPublishWorld 1
    "out text" "error text" (by decide)
  exact ⟨h.1, h.2.1.trans (by decide), h.2.2.1, h.2.2.2⟩

/-- Claim C6: after a zero build exit code with compression enabled for a
supported target, a compressor that exits non-zero (or fails to spawn) never
fails the publish: the result is success with the original publish directory
as output path. -/
theorem publish_upx_failure_nonfatal (runtime projectName publishDir : String)
    (w : PublishWorld) (stdout stderr : String)
    (hsup : (jsStartsWith runtime "linux-" || jsStartsWith runtime "win-") = true)
    (hupx : w.upxExit ≠ some 0) :
    (publishOnClose runtime projectName publishDir true w 0 stdout stderr).success = true
  ∧ (publishOnClose runtime projectName publishDir true w 0 stdout stderr).outputPath
        = publishDir
  ∧ (publishOnClose runtime projectName publishDir true w 0 stdout stderr).upxInvoked = true
  ∧ (publishOnClose runtime projectName publishDir true w 0 stdout stderr).upxSucceeded
        ≠ some true := by
  have hosx : jsStartsWith runtime "osx-" = false := by
    cases Bool.or_eq_true_iff.mp hsup with
    | inl h => exact linux_not_osx runtime h
    | inr h => exact win_not_osx runtime h
  have hbeq : (w.upxExit == some 0) = false := by
    simp [hupx]
  refine ⟨by simp [publishOnClose], by simp [publishOnClose, hosx], by simp [publishOnClose, hsup], ?_⟩
  by_cases hc : (w.dirFiles.contains projectName
      || w.dirFiles.contains (projectName ++ ".exe")) = true
  · simp [publishOnClose, hsup, hc, hbeq]
  · rw [Bool.not_eq_true] at hc
    simp [publishOnClose, hsup, hc]
    exact fun _ => hupx

/-- Witness for claim C6: a compressor exiting with code 1 after a
successful linux-x64 build. -/
theorem publish_upx_failure_nonfatal_witness :
    (publishOnClose "linux-x64" "App" "/out" true upxFailPublishWorld 0
        "out text" "").success = true
  ∧ (publishOnClose "linux-x64" "App" "/out" true upxFailPublishWorld 0
        "out text" "").outputPath = "/out"
  ∧ (publishOnClose "linux-x64" "App" "/out" true upxFailPublishWorld 0
        "out text" "").upxInvoked = true
  ∧ (publishOnClose "linux-x64" "App" "/out" true upxFailPublishWorld 0
        "out text" "").upxSucceeded ≠ some true :=
  publish_upx_failure_nonfatal "linux-x64" "App" "/out" upxFailPublishWorld
    "out text" "" (by decide) (by decide)

/-- Claim C5: one deploy sequence starts its steps in the fixed order
publish, upload, start (each at most once, so no retry), publish failure
stops before any upload, upload failure stops before the remote start, and
every failing step yields its own terminal message. -/
theorem handleDeploy_ordering (isLocal : Bool) (r : StepResults) :
    (∃ n, (handleDeploy isLocal r).1 =
        [DeployStep.publishStep, DeployStep.uploadStep, DeployStep.startStep].take n)
  ∧ (∀ s, (handleDeploy isLocal r).1.count s ≤ 1)
  ∧ (r.publishOk = false →
      (handleDeploy isLocal r).1 = [DeployStep.publishStep] ∧
      (handleDeploy isLocal r).2 = DeployMessage.publishFailed)
  ∧ (isLocal = false → r.publishOk = true → r.uploadOk = false →
      (handleDeploy isLocal r).1 = [DeployStep.publishStep, DeployStep.uploadStep] ∧
      (handleDeploy isLocal r).2 = DeployMessage.uploadFailed)
  ∧ (isLocal = false → r.publishOk = true → r.uploadOk = true → r.startOk = false →
      (handleDeploy isLocal r).1 =
        [DeployStep.publishStep, DeployStep.uploadStep, DeployStep.startStep] ∧
      (handleDeploy isLocal r).2 = DeployMessage.startFailed) := by
  obtain ⟨p, u, st⟩ := r
  refine ⟨?_, ?_, ?_, ?_, ?_⟩
  · cases p <;> cases isLocal <;> cases u <;> cases st <;>
      first
        | exact ⟨1, rfl⟩
        | exact ⟨2, rfl⟩
        | exact ⟨3, rfl⟩
  · intro s
    cases p <;> cases isLocal <;> cases u <;> cases st <;> cases s <;> decide
  · intro hp
    cases p
    · cases isLocal <;> cases u <;> cases st <;> exact ⟨rfl, rfl⟩
    · exact absurd hp (by simp)
  · intro hl hp hu
    subst hl
    cases p
    · exact absurd hp (by simp)
    · cases u
      · cases st <;> exact ⟨rfl, rfl⟩
      · exact absurd hu (by simp)
  · intro hl hp hu hs
    subst hl
    cases p
    · exact absurd hp (by simp)
    · cases u
      · exact absurd hu (by simp)
      · cases st
        · exact ⟨rfl, rfl⟩
        · exact absurd hs (by simp)

/-- Witness for claim C5: in server mode with a failing upload the sequence
stops after publish and upload with the upload failure message. -/
theorem handleDeploy_ordering_witness :
    (handleDeploy false { publishOk := true, uploadOk := false, startOk := true }).1 =
        [DeployStep.publishStep, DeployStep.uploadStep]
  ∧ (handleDeploy false { publishOk := true, uploadOk := false, startOk := true }).2 =
        DeployMessage.uploadFailed :=
  (handleDeploy_ordering false
      { publishOk := true, uploadOk := false, startOk := true }).2.2.2.1 rfl rfl rfl

/-- Claim C2: a second incremental sync run with no local changes and a
remote state reflecting the first run (every file present remotely with the
same size and a modification time at least the local one) uploads zero files
and reports a skip count equal to the number of enumerated files. -/
theorem deploy_incremental_idempotent (w : SftpWorld) (rp an : String)
    (files : List LocalFile)
    (hconn : w.connect = OpResult.ok)
    (hfresh : ∀ f ∈ files, ∃ rs,
        w.stat (remoteFilePath (posixJoin rp an) f) = some rs ∧
        rs.size = f.size ∧ f.mtimeMs / 1000 ≤ rs.modifyTime) :
    (deploy true w rp an files).1.uploaded = 0 ∧
    (deploy true w rp an files).1.skipped = files.length := by
  have hall : ∀ f ∈ files,
      shouldUploadFile (some (localStatOf f))
        (w.stat (remoteFilePath (posixJoin rp an) f)) = false := by
    intro f hf
    obtain ⟨rs, hstat, hsize, hle⟩ := hfresh f hf
    have h1 : ¬(localStatOf f).size ≠ rs.size := by simp [localStatOf, hsize]
    have h2 : ¬rs.modifyTime < (localStatOf f).mtimeMs / 1000 := by
      simp only [localStatOf]
      omega
    simp [shouldUploadFile, hstat, h1, h2]
  have hscan := incrementalScan_all_fresh w (posixJoin rp an) files hall
  cases hch : w.chmod (posixJoin (posixJoin rp an) an) <;>
    simp [deploy, hconn, deployCandidates, hscan.1, hscan.2, uploadLoop, hch]

/-- Witness for claim C2: one 100 byte file whose local mtime truncates to 5
seconds against a remote copy of 100 bytes at 7 seconds. -/
theorem deploy_incremental_idempotent_witness :
    (deploy true freshWorld "/srv" "App" freshFiles).1.uploaded = 0 ∧
    (deploy true freshWorld "/srv" "App" freshFiles).1.skipped = freshFiles.length :=
  deploy_incremental_idempotent freshWorld "/srv" "App" freshFiles rfl
    (by
      intro f hf
      simp only [freshFiles, List.mem_singleton] at hf
      subst hf
      exact ⟨{ size := 100, modifyTime := 7 }, by decide, by decide, by decide⟩)

/-- Claim C7: every exit path of `deploy` closes the session exactly once,
both on success and when connect, put or chmod raises partway through the
candidate list (mkdir errors being swallowed), and a put failure surfaces
exactly the message raised at the failing file. -/
theorem deploy_session_closed_once (inc : Bool) (w : SftpWorld) (rp an : String)
    (files : List LocalFile) :
    (deploy inc w rp an files).2.count Ev.endE = 1
  ∧ ∀ pre f post msg,
      w.connect = OpResult.ok →
      (deployCandidates inc w (posixJoin rp an) files).1 = pre ++ f :: post →
      (∀ g ∈ pre, w.put (remoteFilePath (posixJoin rp an) g) = OpResult.ok) →
      w.put (remoteFilePath (posixJoin rp an) f) = OpResult.fail msg →
      (deploy inc w rp an files).1.error = some msg := by
  constructor
  · cases hconn : w.connect with
    | fail msg => simp only [deploy, hconn]; decide
    | ok =>
      have h1 : (if inc then (incrementalScan w (posixJoin rp an) files).1
          else []).count Ev.endE = 0 := by
        cases inc
        · simp
        · simpa using
            List.count_eq_zero.mpr (incrementalScan_no_endE w (posixJoin rp an) files)
      have h2 : ((uploadLoop w (posixJoin rp an)
          (deployCandidates inc w (posixJoin rp an) files).1).1).count Ev.endE = 0 :=
        List.count_eq_zero.mpr
          (uploadLoop_no_endE w (posixJoin rp an)
            (deployCandidates inc w (posixJoin rp an) files).1)
      cases herr : (uploadLoop w (posixJoin rp an)
          (deployCandidates inc w (posixJoin rp an) files).1).2.1 with
      | some msg =>
        simp only [deploy, hconn, herr]
        simp [List.count_append, h1, h2]
      | none =>
        cases hch : w.chmod (posixJoin (posixJoin rp an) an) with
        | ok =>
          simp only [deploy, hconn, herr, hch]
          simp [List.count_append, h1, h2]
        | fail m =>
          simp only [deploy, hconn, herr, hch]
          simp [List.count_append, h1, h2]
  · intro pre f post msg hconn hcand hpre hput
    have hup : (uploadLoop w (posixJoin rp an)
        (deployCandidates inc w (posixJoin rp an) files).1).2.1 = some msg := by
      rw [hcand]
      exact uploadLoop_error_at w (posixJoin rp an) pre f post msg hpre hput
    simp only [deploy, hconn, hup]

/-- Witness for claim C7: `put` raises on the third of five candidate files;
the trace still closes the session exactly once and the reported error is
the message raised at that file. -/
theorem deploy_session_closed_once_witness :
    (deploy false putFailWorld "/srv" "App" fiveFiles).2.count Ev.endE = 1
  ∧ (deploy false putFailWorld "/srv" "App" fiveFiles).1.error =
      some "No such file /srv/App/f3" := by
  have h := deploy_session_closed_once false putFailWorld "/srv" "App" fiveFiles
  exact ⟨h.1, h.2
    [{ relPath := "f1", size := 1, mtimeMs := 1000 },
     { relPath := "f2", size := 2, mtimeMs := 1000 }]
    { relPath := "f3", size := 3, mtimeMs := 1000 }
    [{ relPath := "f4", size := 4, mtimeMs := 1000 },
     { relPath := "f5", size := 5, mtimeMs := 1000 }]
    "No such file /srv/App/f3" rfl (by decide) (by decide) (by decide)⟩

/-- Claim C9: when every candidate upload succeeds but the unconditional
chmod of `remotePath/assemblyName/assemblyName` raises (as it does when no
remote file of that name exists, e.g. a Windows artifact named
`assemblyName.exe`), the whole sync returns failure with the chmod error,
even though the upload counter equals the full candidate count. -/
theorem deploy_chmod_failure_fails (inc : Bool) (w : SftpWorld) (rp an : String)
    (files : List LocalFile) (msg : String)
    (hconn : w.connect = OpResult.ok)
    (hput : ∀ p, w.put p = OpResult.ok)
    (hchmod : w.chmod (posixJoin (posixJoin rp an) an) = OpResult.fail msg) :
    (deploy inc w rp an files).1.success = false
  ∧ (deploy inc w rp an files).1.error = some msg
  ∧ (deploy inc w rp an files).1.uploaded =
      (deployCandidates inc w (posixJoin rp an) files).1.length := by
  have hup := uploadLoop_all_ok w (posixJoin rp an)
    (deployCandidates inc w (posixJoin rp an) files).1
    (fun f _ => hput (remoteFilePath (posixJoin rp an) f))
  simp only [deploy, hconn, hup.1, hchmod]
  exact ⟨trivial, trivial, hup.2⟩

/-- Witness for claim C9: a directory holding only `App.exe`; all uploads
succeed and the chmod of the absent `App` raises, failing the sync. -/
theorem deploy_chmod_failure_fails_witness :
    (deploy false chmodFailWorld "/srv" "App" exeOnlyFiles).1.success = false
  ∧ (deploy false chmodFailWorld "/srv" "App" exeOnlyFiles).1.error =
      some "No such file /srv/App/App"
  ∧ (deploy false chmodFailWorld "/srv" "App" exeOnlyFiles).1.uploaded =
      (deployCandidates false chmodFailWorld (posixJoin "/srv" "App") exeOnlyFiles).1.length :=
  deploy_chmod_failure_fails false chmodFailWorld "/srv" "App" exeOnlyFiles
    "No such file /srv/App/App" rfl (fun _ => rfl) (by decide)

end DotnetDeploy
